import Mathlib

/-!
Verification of the InferenceStore request-fingerprint cache.

This file gives a shallow embedding of the Rust sources of the repository
(`src/input_parsing.rs`, `src/output_parsing.rs`, `src/utils.rs`,
`src/settings.rs`, `src/caching/cachestore.rs`,
`src/caching/cachable_modelinfer.rs`, `src/caching/cachable_modelconfig.rs`,
`src/service.rs`, `src/main.rs`) and settles the spec claims against it.

Modelling conventions:
* Rust `String`s that are only compared and hashed are modelled by their
  UTF-8 byte sequences (`Bytes := List Nat`); UTF-8 encoding is injective,
  so string equality is byte equality.
* `i64`/`u64` scalars are `Int`/`Nat` with explicit reduction mod `2^64`
  when they are serialized to bytes; `f64` parameters are modelled by their
  8-byte bit pattern (a `Nat < 2^64`), which is exactly what the source
  hashes via `to_ne_bytes`.  The build platform is little-endian, so
  `to_ne_bytes = to_le_bytes`.
* `BTreeMap<String, V>` is modelled by an association list kept in
  ascending key order (the iteration order the source relies on).
* The cryptographic digests (`Blake2b<U8>`, `Blake2s256`) are modelled by a
  concrete compression function (`digest8` / `digest32`) applied to the
  exact byte stream the source feeds into the hasher; the stream itself is
  also exposed (`...Msg` functions) so that collision-independent facts can
  be stated about the preimages.
* The file system is a single directory modelled as a list of
  `(file name, file content)` pairs; JSON (de)serialization of an entry is
  modelled as the identity on the structured content, and a file whose
  content does not parse is `FileContent.garbage`.
* A Rust `panic!` (e.g. `Option::unwrap` / `Result::unwrap` failure) is a
  distinguished outcome, not an `Err`.
-/

namespace InferStore

/-- Byte strings: Rust `String` / `Vec<u8>` contents. -/
abbrev Bytes := List Nat

/-- Little-endian 8-byte encoding of a 64-bit value (`to_le_bytes`;
`to_ne_bytes` on the little-endian build platform). -/
def toLeBytes8 (n : Nat) : Bytes :=
  [n % 256, n / 2^8 % 256, n / 2^16 % 256, n / 2^24 % 256,
   n / 2^32 % 256, n / 2^40 % 256, n / 2^48 % 256, n / 2^56 % 256]

/-- Twos-complement 64-bit representative of an `i64`. -/
def i64Repr (i : Int) : Nat := (i.emod (2^64)).toNat

/-- Model of `i64::to_le_bytes`. -/
def i64ToLeBytes (i : Int) : Bytes := toLeBytes8 (i64Repr i)

/-- Model of the 64-bit digest `Blake2b<U8>`: an FNV-style compression of
the exact byte stream the source feeds to the hasher.  Sequential
`Digest::update` calls hash the concatenation of their arguments, so the
digest is a function of that concatenation. -/
def digest64 (s : Bytes) : Nat :=
  s.foldl (fun a b => (a * 1099511628211 + b + 1) % 2^64) 14695981039346656037

/-- The 8-byte output of the 64-bit digest (`Blake2b<U8>::finalize`). -/
def digest8 (s : Bytes) : Bytes := toLeBytes8 (digest64 s)

/-- Model of the 256-bit digest `Blake2s256`: 32 bytes derived from the
input stream.  Only equality of digests matters for the claims. -/
def digest32 (s : Bytes) : Bytes :=
  toLeBytes8 (digest64 (0 :: s)) ++ toLeBytes8 (digest64 (1 :: s)) ++
  toLeBytes8 (digest64 (2 :: s)) ++ toLeBytes8 (digest64 (3 :: s))

/-- Model of `src/input_parsing.rs` `Parameter`: the five-way tagged scalar.
`doubleParam` carries the `f64` bit pattern. -/
inductive Parameter where
  | boolParam (v : Bool)
  | int64Param (v : Int)
  | stringParam (v : Bytes)
  | doubleParam (bits : Nat)
  | uint64Param (v : Nat)
deriving DecidableEq

/-- Model of `Parameter::as_bytes`: one discriminant byte followed by the value
bytes (native endian = little endian here). -/
def Parameter.as_bytes : Parameter → Bytes
  | .boolParam v => 1 :: [if v then 1 else 0]
  | .int64Param v => 2 :: i64ToLeBytes v
  | .stringParam v => 3 :: v
  | .doubleParam bits => 4 :: toLeBytes8 bits
  | .uint64Param v => 5 :: toLeBytes8 (v % 2^64)

/-- Model of `BTreeMap<String, Option<Parameter>>`, in ascending key order. -/
abbrev Params := List (Bytes × Option Parameter)

/-- Model of `BTreeMap::get`. -/
def lookupP (m : Params) (k : Bytes) : Option (Option Parameter) :=
  (m.find? (fun kv => kv.1 == k)).map (·.2)

/-- Modelled from the spec: `btreemap_compare` is imported by
`src/input_parsing.rs` from `crate::utils` but only its `HashMap` twin
`hashmap_compare` is under `src/` (`src/utils.rs`).  The definition below
follows the spec function `keyedMapEqual` (§4.2), which coincides with
`hashmap_compare` applied to ordered maps: with `exclude_keys` the two maps
restricted to the complement of `keys_to_compare` must be equal (for
key-sorted lists, equality as maps is list equality); otherwise every key
in `keys_to_compare` must have equal `get` results on both sides. -/
def btreemap_compare (m1 m2 : Params) (keys_to_compare : List Bytes)
    (exclude_keys : Bool) : Bool :=
  if exclude_keys then
    m1.filter (fun kv => !(keys_to_compare.contains kv.1)) ==
      m2.filter (fun kv => !(keys_to_compare.contains kv.1))
  else
    keys_to_compare.all (fun k => lookupP m1 k == lookupP m2 k)

/-- Model of `src/input_parsing.rs` `Input` (metadata of one input tensor). -/
structure TensorInput where
  name : Bytes
  datatype : Bytes
  shape : List Int
  parameters : Params
deriving DecidableEq

/-- Model of `src/input_parsing.rs` `Output` (metadata of one requested output). -/
structure TensorOutput where
  name : Bytes
  parameters : Params
deriving DecidableEq

/-- Model of `src/input_parsing.rs` `ProcessedInput`: the request fingerprint. -/
structure ProcessedInput where
  model_name : Bytes
  model_version : Bytes
  id : Bytes
  parameters : Params
  inputs : List TensorInput
  outputs : List TensorOutput
  content_hash : Bytes
deriving DecidableEq

/-- Model of `src/input_parsing.rs` `MatchConfig`. -/
structure MatchConfig where
  match_id : Bool
  parameter_keys : List Bytes
  exclude_parameters : Bool
  input_parameter_keys : List (Bytes × List Bytes)
  exclude_input_parameters : Bool
  output_parameter_keys : List (Bytes × List Bytes)
  exclude_output_parameters : Bool
  match_pruned_output : Bool

/-- Model of `HashMap<String, Vec<String>>` lookup with `entry(key).or_insert(vec![])`:
the keys configured for one tensor name, defaulting to the empty list. -/
def keysFor (m : List (Bytes × List Bytes)) (k : Bytes) : List Bytes :=
  ((m.find? (fun kv => kv.1 == k)).map (·.2)).getD []

/-- Collecting a list of named items into a `HashMap` keyed by name:
later duplicates overwrite earlier ones.  The source iterates over the
resulting map; the boolean checks below are order independent, so any
enumeration order of the collapsed map is faithful. -/
def collapseInputs (l : List TensorInput) : List TensorInput :=
  l.foldl (fun acc x => acc.filter (fun y => !(y.name == x.name)) ++ [x]) []

/-- Same collapse for the requested outputs. -/
def collapseOutputs (l : List TensorOutput) : List TensorOutput :=
  l.foldl (fun acc x => acc.filter (fun y => !(y.name == x.name)) ++ [x]) []

/-- Model of `ProcessedInput::matches` (`src/input_parsing.rs`). -/
def ProcessedInput.matches (self other : ProcessedInput)
    (config : MatchConfig) : Bool :=
  if self.model_name != other.model_name ||
      self.model_version != other.model_version ||
      self.content_hash != other.content_hash then
    false
  else if config.match_id && self.id != other.id then
    false
  else if !(btreemap_compare self.parameters other.parameters
      config.parameter_keys config.exclude_parameters) then
    false
  else if !((collapseInputs self.inputs).all (fun self_value =>
      match (collapseInputs other.inputs).find?
          (fun y => y.name == self_value.name) with
      | some other_value =>
        if self_value.name != other_value.name ||
            self_value.datatype != other_value.datatype ||
            self_value.shape != other_value.shape then
          false
        else
          btreemap_compare self_value.parameters other_value.parameters
            (keysFor config.input_parameter_keys self_value.name)
            config.exclude_input_parameters
      | none => false)) then
    false
  else if !((collapseOutputs self.outputs).all (fun self_value =>
      match (collapseOutputs other.outputs).find?
          (fun y => y.name == self_value.name) with
      | some other_value =>
        if self_value.name != other_value.name then
          false
        else
          btreemap_compare self_value.parameters other_value.parameters
            (keysFor config.output_parameter_keys self_value.name)
            config.exclude_output_parameters
      | none => false)) then
    false
  else
    true

/-- Byte stream contributed to the metadata hash by one parameter map:
for each entry in key order, the key bytes, then the value bytes when the
value is present (absent values contribute only their key). -/
def paramsMsg (ps : Params) : Bytes :=
  (ps.map (fun kv => kv.1 ++ (match kv.2 with
    | some p => p.as_bytes
    | none => []))).flatten

/-- Byte stream fed to the hasher by `ProcessedInput::inputs_hash`. -/
def ProcessedInput.inputsHashMsg (i : ProcessedInput) : Bytes :=
  i.model_name ++ i.model_version ++ i.content_hash ++
  (i.inputs.map (fun inp =>
    inp.datatype ++ inp.name ++ (inp.shape.map i64ToLeBytes).flatten)).flatten

/-- Model of `ProcessedInput::inputs_hash`. -/
def ProcessedInput.inputs_hash (i : ProcessedInput) : Bytes :=
  digest8 i.inputsHashMsg

/-- Byte stream fed to the hasher by `ProcessedInput::outputs_hash`. -/
def ProcessedInput.outputsHashMsg (i : ProcessedInput) : Bytes :=
  (i.outputs.map (fun o => o.name)).flatten

/-- Model of `ProcessedInput::outputs_hash`. -/
def ProcessedInput.outputs_hash (i : ProcessedInput) : Bytes :=
  digest8 i.outputsHashMsg

/-- Byte stream fed to the hasher by `ProcessedInput::metadata_hash`:
the id, then each top-level parameter (key, then value bytes when present),
then the same for the parameters of each input tensor and of each output. -/
def ProcessedInput.metadataHashMsg (i : ProcessedInput) : Bytes :=
  i.id ++ paramsMsg i.parameters ++
  (i.inputs.map (fun inp => paramsMsg inp.parameters)).flatten ++
  (i.outputs.map (fun o => paramsMsg o.parameters)).flatten

/-- Model of `ProcessedInput::metadata_hash`. -/
def ProcessedInput.metadata_hash (i : ProcessedInput) : Bytes :=
  digest8 i.metadataHashMsg

/-! ### Settings (`src/settings.rs`) -/

/-- Model of `ServerMode`. -/
inductive ServerMode where
  | Collect
  | Serve
deriving DecidableEq

/-- Model of `ParameterMatching`.  The doc comments in the source: `Disable`: "Do not
match any parameters."; `MatchKeys`: "Match all supplied parameters.";
`IgnoreKeys`: "Match all parameters, except for the supplied once." -/
inductive ParameterMatching where
  | Disable
  | MatchKeys
  | IgnoreKeys
deriving DecidableEq

/-- Model of `RequestMatching`. -/
structure RequestMatching where
  match_id : Bool
  parameter_matching : ParameterMatching
  parameter_keys : List Bytes
  input_parameter_matching : ParameterMatching
  input_parameter_keys : List (Bytes × List Bytes)
  output_parameter_matching : ParameterMatching
  output_parameter_keys : List (Bytes × List Bytes)
  match_pruned_output : Bool

/-- Model of `Settings`, restricted to the fields the dispatcher consults
(`debug`, the endpoints and the store path only configure I/O). -/
structure Settings where
  mode : ServerMode
  request_matching : RequestMatching

/-- Model of `Settings::get_match_config` (`src/settings.rs`). -/
def Settings.get_match_config (s : Settings) : MatchConfig :=
  { match_id := s.request_matching.match_id
    parameter_keys :=
      if s.request_matching.parameter_matching = ParameterMatching.Disable
      then [] else s.request_matching.parameter_keys
    exclude_parameters :=
      s.request_matching.parameter_matching ≠ ParameterMatching.MatchKeys
    input_parameter_keys :=
      if s.request_matching.input_parameter_matching = ParameterMatching.Disable
      then [] else s.request_matching.input_parameter_keys
    exclude_input_parameters :=
      s.request_matching.input_parameter_matching ≠ ParameterMatching.MatchKeys
    output_parameter_keys :=
      if s.request_matching.output_parameter_matching = ParameterMatching.Disable
      then [] else s.request_matching.output_parameter_keys
    exclude_output_parameters :=
      s.request_matching.output_parameter_matching ≠ ParameterMatching.MatchKeys
    match_pruned_output := s.request_matching.match_pruned_output }

/-! ### Response parsing (`src/output_parsing.rs`) -/

/-- Model of `src/output_parsing.rs` `Output` (one produced output tensor). -/
structure RespOutput where
  parameters : Params
  name : Bytes
  datatype : Bytes
  shape : List Int
deriving DecidableEq

/-- Model of `src/output_parsing.rs` `ProcessedOutput`. -/
structure ProcessedOutput where
  parameters : Params
  outputs : List RespOutput
  raw_output_contents : List Bytes
deriving DecidableEq

/-- Byte stream fed to the hasher by `ProcessedOutput::hash`. -/
def ProcessedOutput.hashMsg (o : ProcessedOutput) : Bytes :=
  paramsMsg o.parameters ++
  (o.outputs.map (fun out =>
    out.datatype ++ out.name ++ (out.shape.map i64ToLeBytes).flatten ++
    paramsMsg out.parameters)).flatten ++
  o.raw_output_contents.flatten

/-- Model of `ProcessedOutput::hash`. -/
def ProcessedOutput.hash (o : ProcessedOutput) : Bytes :=
  digest8 o.hashMsg

/-! ### The JSON codec of `Parameter`

`Parameter` is `#[serde(untagged)]` with variant order
`Bool, Int64, String, Double, Uint64`.  Serialization writes the bare
value; deserialization tries the variants in that order on the buffered
JSON value.  Consequently a serialize-then-deserialize round trip is NOT
the identity:
* `Uint64Param(v)` is written as a plain integer; on reload `Int64Param`
  is tried first and succeeds whenever `v ≤ i64::MAX`, so the value comes
  back as `Int64Param(v)`; for `v > i64::MAX` the `i64` read fails and
  `DoubleParam` absorbs it via the lossy `u64 → f64` conversion.
* a non-finite `f64` (`NaN`, `±inf`) is written by `serde_json` as
  `null`, which reloads as the absent value `None`; finite doubles are
  printed in shortest round-trip form and reload exactly.
* `Bool`, `Int64` and `String` values reload exactly (a non-negative
  integer is buffered as `u64` and `i64` accepts it; a negative one is
  buffered as `i64`).
All other fields of the stored structures (strings, `i64` shape dims,
base64 byte arrays, key-ordered maps) round-trip exactly. -/

/-- Exponent field of an `f64` bit pattern. -/
def f64ExpBits (bits : Nat) : Nat := bits / 2^52 % 2^11

/-- Model of `f64::is_finite` on the bit pattern: the exponent field is not
all ones. -/
def f64IsFinite (bits : Nat) : Bool := f64ExpBits bits != 2047

/-- Model of the Rust `v as f64` conversion of a `u64`: round to nearest,
ties to even, at 53 bits of precision, returned as the `f64` bit
pattern. -/
def u64ToF64Bits (v : Nat) : Nat :=
  if v = 0 then 0
  else
    let k := Nat.log2 v
    if k ≤ 52 then (1023 + k) * 2^52 + (v * 2^(52 - k) - 2^52)
    else
      let shift := k - 52
      let q := v / 2^shift
      let r := v % 2^shift
      let half := 2^(shift - 1)
      let q2 := if half < r ∨ (r = half ∧ q % 2 = 1) then q + 1 else q
      if q2 = 2^53 then (1024 + k) * 2^52
      else (1023 + k) * 2^52 + (q2 - 2^52)

/-- Serialize-then-deserialize of one present parameter value under the
untagged codec described above; `none` is the reload of a `null`. -/
def Parameter.reload : Parameter → Option Parameter
  | .boolParam v => some (.boolParam v)
  | .int64Param v => some (.int64Param v)
  | .stringParam s => some (.stringParam s)
  | .doubleParam bits =>
    if f64IsFinite bits then some (.doubleParam bits) else none
  | .uint64Param v =>
    if v < 2^63 then some (.int64Param (v : Int))
    else some (.doubleParam (u64ToF64Bits v))

/-- Reload of a parameter map: keys and absent values round-trip exactly;
present values go through the untagged codec (a value reloaded from
`null` becomes absent). -/
def reloadParams (ps : Params) : Params :=
  ps.map (fun kv => (kv.1, kv.2.bind Parameter.reload))

/-- Reload of one stored input tensor. -/
def TensorInput.reload (t : TensorInput) : TensorInput :=
  { t with parameters := reloadParams t.parameters }

/-- Reload of one stored requested output. -/
def TensorOutput.reload (t : TensorOutput) : TensorOutput :=
  { t with parameters := reloadParams t.parameters }

/-- Reload of a stored fingerprint: deserializing the JSON that
serializing it produced. -/
def ProcessedInput.reload (i : ProcessedInput) : ProcessedInput :=
  { i with parameters := reloadParams i.parameters
           inputs := i.inputs.map TensorInput.reload
           outputs := i.outputs.map TensorOutput.reload }

/-- Reload of one stored produced output tensor. -/
def RespOutput.reload (t : RespOutput) : RespOutput :=
  { t with parameters := reloadParams t.parameters }

/-- Reload of a stored response. -/
def ProcessedOutput.reload (o : ProcessedOutput) : ProcessedOutput :=
  { o with parameters := reloadParams o.parameters
           outputs := o.outputs.map RespOutput.reload }

/-! ### The gRPC message types consumed and produced by the proxy
(generated from the KServe v2 protocol; only the fields the source
touches are modelled). -/

/-- Model of `InferParameter`: a protobuf `oneof` over the same five variants as
`Parameter`; `parameter_choice = none` is an unset oneof. -/
structure InferParameter where
  parameter_choice : Option Parameter
deriving DecidableEq

/-- Model of `Parameter::from_infer_parameter`: variant-for-variant translation of
the set oneof, `none` for an unset one. -/
def Parameter.from_infer_parameter (p : InferParameter) : Option Parameter :=
  p.parameter_choice

/-- Model of `Parameter::to_infer_parameter`. -/
def Parameter.to_infer_parameter (p : Parameter) : InferParameter :=
  { parameter_choice := some p }

/-- Model of `InferParameter::default()`: unset oneof. -/
def InferParameter.default : InferParameter := { parameter_choice := none }

/-- Protobuf map fields (`map<string, InferParameter>`): unordered, keys
unique; modelled as an association list. -/
abbrev WireParams := List (Bytes × InferParameter)

/-- Insertion into an ordered map, overwriting an existing key
(`BTreeMap::insert`). -/
def insertSorted : Params → Bytes → Option Parameter → Params
  | [], k, v => [(k, v)]
  | (k0, v0) :: rest, k, v =>
    if k = k0 then (k, v) :: rest
    else if decide (k < k0) then (k, v) :: (k0, v0) :: rest
    else (k0, v0) :: insertSorted rest k v

/-- Collecting wire parameters into a `BTreeMap` keyed by name: insert one
by one in order, sorting by key and overwriting duplicates, while applying
`Parameter::from_infer_parameter` to each value. -/
def toBTreeMap (ps : WireParams) : Params :=
  ps.foldl (fun acc kv => insertSorted acc kv.1 kv.2.parameter_choice) []

/-- Model of `InferInputTensor` from `ModelInferRequest`.  `contents` is the typed
tensor payload (`InferTensorContents`), modelled opaquely: the parser never
reads it. -/
structure InferInputTensor where
  name : Bytes
  datatype : Bytes
  shape : List Int
  parameters : WireParams
  contents : Option (List Int)
deriving DecidableEq

/-- Model of `InferRequestedOutputTensor` from `ModelInferRequest`. -/
structure InferRequestedOutputTensor where
  name : Bytes
  parameters : WireParams
deriving DecidableEq

/-- Model of `ModelInferRequest`. -/
structure ModelInferRequest where
  model_name : Bytes
  model_version : Bytes
  id : Bytes
  parameters : WireParams
  inputs : List InferInputTensor
  outputs : List InferRequestedOutputTensor
  raw_input_contents : List Bytes
deriving DecidableEq

/-- Model of `InferOutputTensor` from `ModelInferResponse`. -/
structure InferOutputTensor where
  name : Bytes
  datatype : Bytes
  shape : List Int
  parameters : WireParams
  contents : Option (List Int)
deriving DecidableEq

/-- Model of `ModelInferResponse`. -/
structure ModelInferResponse where
  model_name : Bytes
  model_version : Bytes
  id : Bytes
  parameters : WireParams
  outputs : List InferOutputTensor
  raw_output_contents : List Bytes
deriving DecidableEq

/-- Model of `ProcessedInput::from_infer_request` (`src/input_parsing.rs`): the
content hash digests the concatenation, in order, of the raw input byte
buffers — and nothing else (the source carries a
`TODO parse inputs if there are not raw_input_contents`). -/
def ProcessedInput.from_infer_request (req : ModelInferRequest) :
    ProcessedInput :=
  { model_name := req.model_name
    model_version := req.model_version
    id := req.id
    parameters := toBTreeMap req.parameters
    inputs := req.inputs.map (fun input =>
      { name := input.name
        datatype := input.datatype
        shape := input.shape
        parameters := toBTreeMap input.parameters })
    outputs := req.outputs.map (fun output =>
      { name := output.name
        parameters := toBTreeMap output.parameters })
    content_hash := digest32 req.raw_input_contents.flatten }

/-- Model of `ProcessedOutput::from_response` (`src/output_parsing.rs`). -/
def ProcessedOutput.from_response (response : ModelInferResponse) :
    ProcessedOutput :=
  { parameters := toBTreeMap response.parameters
    outputs := response.outputs.map (fun t =>
      { parameters := toBTreeMap t.parameters
        name := t.name
        datatype := t.datatype
        shape := t.shape })
    raw_output_contents := response.raw_output_contents }

/-- Model of `ProcessedOutput::to_response` (`src/output_parsing.rs`): materialize a
response from the stored output; the identifying triple is echoed from the
incoming request. -/
def ProcessedOutput.to_response (o : ProcessedOutput)
    (request : ModelInferRequest) : ModelInferResponse :=
  { model_name := request.model_name
    model_version := request.model_version
    id := request.id
    parameters := o.parameters.map (fun kv =>
      (kv.1, match kv.2 with
        | none => InferParameter.default
        | some p => p.to_infer_parameter))
    outputs := o.outputs.map (fun out =>
      { name := out.name
        datatype := out.datatype
        shape := out.shape
        parameters := out.parameters.map (fun kv =>
          (kv.1, match kv.2 with
            | none => InferParameter.default
            | some p => p.to_infer_parameter))
        contents := none })
    raw_output_contents := o.raw_output_contents }

/-- Model of `ModelStreamInferResponse`. -/
structure ModelStreamInferResponse where
  error_message : String
  infer_response : Option ModelInferResponse
deriving DecidableEq

/-- Model of `ProcessedOutput::to_stream_response`. -/
def ProcessedOutput.to_stream_response (o : ProcessedOutput)
    (request : ModelInferRequest) : ModelStreamInferResponse :=
  { error_message := "", infer_response := some (o.to_response request) }

/-! ### Hex encoding (`hex::encode` / `hex::decode`) and file names -/

/-- File names are ASCII character sequences (Rust byte-slices a `&str`;
every name manipulated here is ASCII, where byte and char indices agree). -/
abbrev FileName := List Char

/-- One hex digit, lowercase (as produced by `hex::encode`). -/
def hexChar (n : Nat) : Char :=
  if n < 10 then Char.ofNat (48 + n) else Char.ofNat (87 + n)

/-- Model of `hex::encode`: big nibble first. -/
def hexEncode (bs : Bytes) : FileName :=
  (bs.map (fun b => [hexChar (b / 16), hexChar (b % 16)])).flatten

/-- Value of one hex digit (`hex::decode` accepts both cases). -/
def hexDigitVal (c : Char) : Option Nat :=
  if 48 ≤ c.toNat ∧ c.toNat ≤ 57 then some (c.toNat - 48)
  else if 97 ≤ c.toNat ∧ c.toNat ≤ 102 then some (c.toNat - 87)
  else if 65 ≤ c.toNat ∧ c.toNat ≤ 70 then some (c.toNat - 55)
  else none

/-- Model of `hex::decode`: `none` on an odd length or a non-hex character. -/
def hexDecode : FileName → Option Bytes
  | [] => some []
  | [_] => none
  | c1 :: c2 :: rest =>
    match hexDigitVal c1, hexDigitVal c2, hexDecode rest with
    | some h, some l, some bs => some ((16 * h + l) :: bs)
    | _, _, _ => none

/-- Rust slice `&l[a..b]`. -/
def sliceL {α : Type} (l : List α) (a b : Nat) : List α :=
  (l.drop a).take (b - a)

/-- Rust `str::starts_with`. -/
def startsWithL (p l : FileName) : Bool := l.take p.length == p

/-- Rust `str::ends_with`. -/
def endsWithL (s l : FileName) : Bool := l.drop (l.length - s.length) == s

/-! ### The on-disk store directory -/

/-- Body of a file in the store directory: either the JSON
`InputOutputWrapper { input, output }` of an inference entry, recorded as
the structures that were serialized into it, or bytes that do not parse as
one (corrupt or foreign content).  Readers apply the serde reload
(`ProcessedInput.reload` / `ProcessedOutput.reload`) when they parse such
a file, which is where the untagged-`Parameter` collapse happens;
deserializing `InputWrapper` (resp. `OutputWrapper`) from an entry file
reads its `input` (resp. `output`) field and ignores the other, as serde
ignores unknown fields. -/
inductive FileContent where
  | inferEntry (input : ProcessedInput) (output : ProcessedOutput)
  | garbage (data : Bytes)
deriving DecidableEq

/-- The store directory: file names with their contents (names unique in
any state the program produces). -/
abbrev DirState := List (FileName × FileContent)

/-- Does a file with this name exist? -/
def hasFile (fs : DirState) (name : FileName) : Bool :=
  fs.any (fun f => f.1 == name)

/-- Model of `File::open` for reading. -/
def readFile (fs : DirState) (name : FileName) : Option FileContent :=
  (fs.find? (fun f => f.1 == name)).map (·.2)

/-- In-memory form of one cached inference
(`CachableModelInfer { dir, input, output_hash }`; the directory path is
the single modelled directory). -/
structure CachableModelInfer where
  input : ProcessedInput
  output_hash : Bytes
deriving DecidableEq

/-- Model of `CachableModelInfer::get_hash`: the 32-byte composite of the three
fingerprint hashes and the supplied output hash. -/
def CachableModelInfer.get_hash (e : CachableModelInfer) : Bytes :=
  e.input.inputs_hash ++ e.input.outputs_hash ++ e.input.metadata_hash ++
    e.output_hash

/-- Model of `CachableModelInfer::get_file_name`:
`infer-<hex(hash[0..8])>#<hex(hash[8..16])>#<hex(hash[16..24])>#<hex(hash[24..32])>.inferstore`. -/
def CachableModelInfer.get_file_name (e : CachableModelInfer) : FileName :=
  "infer-".toList ++ hexEncode (sliceL e.get_hash 0 8) ++
  "#".toList ++ hexEncode (sliceL e.get_hash 8 16) ++
  "#".toList ++ hexEncode (sliceL e.get_hash 16 24) ++
  "#".toList ++ hexEncode (sliceL e.get_hash 24 32) ++
  ".inferstore".toList

/-- Model of `<CachableModelInfer as Cachable>::matches_file_name`. -/
def CachableModelInfer.matches_file_name (file_name : FileName) : Bool :=
  startsWithL "infer-".toList file_name &&
  endsWithL ".inferstore".toList file_name &&
  file_name.length == 84

/-- Model of `<CachableModelInfer as Cachable>::matches`. -/
def CachableModelInfer.matchesInput (e : CachableModelInfer)
    (input : ProcessedInput) (config : MatchConfig) : Bool :=
  e.input.matches input config

/-- Errors surfaced as `anyhow::Error` by the store operations. -/
inductive StoreErr where
  | alreadyExists
  | ioError
  | parseError
deriving DecidableEq

/-- Outcome of `<CachableModelInfer as Cachable>::from_file`, which can
also panic: after parsing the `input` from the file body it runs
`hex::decode(&file_name[57..73]).unwrap()`, and `unwrap` of a decode
failure aborts instead of returning an error.  (Indexing `[57..73]` itself
panics on a name shorter than 73; both aborts are `panicked`.) -/
inductive FromFileResult where
  | parsed (e : CachableModelInfer)
  | failed
  | panicked
deriving DecidableEq

/-- Model of `<CachableModelInfer as Cachable>::from_file` on an existing
file: parse the `input` field of the body (applying the serde reload, so
the parsed fingerprint is `input.reload`, not necessarily `input`), then
recover the output hash from file-name bytes 57..73. -/
def fromFile (name : FileName) (content : FileContent) : FromFileResult :=
  match content with
  | .garbage _ => .failed
  | .inferEntry input _ =>
    if name.length < 73 then .panicked
    else
      match hexDecode (sliceL name 57 73) with
      | none => .panicked
      | some output_hash =>
        .parsed { input := input.reload, output_hash := output_hash }

/-- Model of `<CachableModelInfer as Cachable>::get_output`: reconstruct the file
name from the entry, reopen the file and parse the `output` field
(applying the serde reload, so the parsed response is `output.reload`). -/
def CachableModelInfer.getOutput (e : CachableModelInfer) (fs : DirState) :
    Except StoreErr ProcessedOutput :=
  match readFile fs e.get_file_name with
  | none => .error .ioError
  | some (.inferEntry _ output) => .ok output.reload
  | some (.garbage _) => .error .parseError

/-- Model of `<CachableModelInfer as Cachable>::new`: build the entry from the
input and `output.hash()`, then `File::create_new` (create-exclusive: an
existing file of the same name is an error) and write the JSON
`InputOutputWrapper`. -/
def cachableNew (fs : DirState) (input : ProcessedInput)
    (output : ProcessedOutput) :
    Except StoreErr (DirState × FileName × CachableModelInfer) :=
  let e : CachableModelInfer :=
    { input := input, output_hash := output.hash }
  let file_name := e.get_file_name
  if hasFile fs file_name then .error .alreadyExists
  else .ok (fs ++ [(file_name, .inferEntry input output)], file_name, e)

instance {ε α : Type} [DecidableEq ε] [DecidableEq α] :
    DecidableEq (Except ε α) := fun a b =>
  match a, b with
  | .ok x, .ok y =>
    if h : x = y then .isTrue (by rw [h]) else .isFalse (by simp [h])
  | .error x, .error y =>
    if h : x = y then .isTrue (by rw [h]) else .isFalse (by simp [h])
  | .ok _, .error _ => .isFalse (by simp)
  | .error _, .ok _ => .isFalse (by simp)

/-- Result of `CacheStore::store`: the returned value together with the
directory and the in-memory sequence after the call. -/
structure StoreResult where
  res : Except StoreErr FileName
  fs : DirState
  mem : List CachableModelInfer
deriving DecidableEq

/-- Model of `CacheStore::store` (`src/caching/cachestore.rs`): call `T::new`; on
error return it (leaving memory untouched), on success append the entry to
the in-memory sequence. -/
def CacheStore.store (fs : DirState) (mem : List CachableModelInfer)
    (input : ProcessedInput) (output : ProcessedOutput) : StoreResult :=
  match cachableNew fs input output with
  | .error err => { res := .error err, fs := fs, mem := mem }
  | .ok (fs2, path, cachable) =>
    { res := .ok path, fs := fs2, mem := mem ++ [cachable] }

/-- Did `from_file` panic? -/
def FromFileResult.isPanic : FromFileResult → Bool
  | .panicked => true
  | _ => false

/-- Model of `Result::ok()` of the `from_file` outcome. -/
def FromFileResult.toParsed : FromFileResult → Option CachableModelInfer
  | .parsed e => some e
  | _ => none

/-- Model of `CacheStore::load` (`src/caching/cachestore.rs`): enumerate the
directory, keep the names accepted by `matches_file_name`, run `from_file`
on each and push the successes, ignoring per-file failures
(`.filter_map(|p| T::from_file(p).ok())`).  A panic inside `from_file`
unwinds out of `load` instead of completing it. -/
def CacheStore.load (fs : DirState) :
    Except Unit (List CachableModelInfer) :=
  let files := fs.filter (fun f => CachableModelInfer.matches_file_name f.1)
  if files.any (fun f => (fromFile f.1 f.2).isPanic) then
    .error ()
  else
    .ok (files.filterMap (fun f => (fromFile f.1 f.2).toParsed))

/-- Model of `CacheStore::find_output` (`src/caching/cachestore.rs`): scan the
in-memory sequence in order; return `get_output` of the first entry whose
`matches` holds, logging and continuing past `get_output` errors. -/
def CacheStore.findOutput (fs : DirState) (mem : List CachableModelInfer)
    (match_input : ProcessedInput) (config : MatchConfig) :
    Option ProcessedOutput :=
  match mem with
  | [] => none
  | e :: rest =>
    if e.matchesInput match_input config then
      match e.getOutput fs with
      | .ok o => some o
      | .error _ => CacheStore.findOutput fs rest match_input config
    else
      CacheStore.findOutput fs rest match_input config

/-! ### The config store (`src/caching/cachable_modelconfig.rs`);
only the parts the dispatcher claims touch are modelled. -/

/-- Model of `ModelConfigRequest`. -/
structure ModelConfigRequest where
  name : Bytes
  version : Bytes
deriving DecidableEq

/-- Model of `ModelConfigResponse`, opaque: the dispatcher stores and returns it
without inspecting it. -/
structure ModelConfigResponse where
  payload : Nat
deriving DecidableEq

/-- Model of `CachableModelConfig`. -/
structure CachableModelConfig where
  input : ModelConfigRequest
  output : ModelConfigResponse
deriving DecidableEq

/-- Model of `<CachableModelConfig as Cachable>::matches`: `(name, version)`
equality. -/
def CachableModelConfig.matchesInput (e : CachableModelConfig)
    (input : ModelConfigRequest) : Bool :=
  e.input.name == input.name && e.input.version == input.version

/-- Model of `CacheStore::<CachableModelConfig>::find_output`: first-match scan of
the in-memory sequence; `get_output` is in-memory and never fails. -/
def configFindOutput (mem : List CachableModelConfig)
    (match_input : ModelConfigRequest) : Option ModelConfigResponse :=
  match mem with
  | [] => none
  | e :: rest =>
    if e.matchesInput match_input then some e.output
    else configFindOutput rest match_input

/-! ### The dispatcher (`src/service.rs`) -/

/-- gRPC status codes that the dispatcher produces or passes through. -/
inductive StatusCode where
  | ok
  | notFound
  | unavailable
  | unknown
  | invalidArgument
  | internal
  | unimplemented
deriving DecidableEq

/-- Model of `tonic::Status`. -/
structure Status where
  code : StatusCode
  msg : String
deriving DecidableEq

/-- Model of `Status::not_found`. -/
def Status.not_found (m : String) : Status := { code := .notFound, msg := m }

/-- Model of `Status::unavailable`. -/
def Status.unavailable (m : String) : Status :=
  { code := .unavailable, msg := m }

/-- Model of `Status::unknown`. -/
def Status.unknown (m : String) : Status := { code := .unknown, msg := m }

/-- Model of `err.to_string()` of a `tonic::Status`: its display string.  Only used
as an opaque message payload, modelled by the status message. -/
def Status.toStr (s : Status) : String := s.msg

/-- Model of `err.to_string()` of a store error, an opaque message payload. -/
def StoreErr.toStr : StoreErr → String
  | .alreadyExists => "File exists (os error 17)"
  | .ioError => "io error"
  | .parseError => "parse error"

/-- The upstream `GrpcInferenceServiceClient`, modelled by the responses
its two calls produce.  Cloning the client is free and the model is
deterministic per request, which suffices for the per-request claims. -/
structure UpstreamClient where
  infer : ModelInferRequest → Except Status ModelInferResponse
  config : ModelConfigRequest → Except Status ModelConfigResponse

/-- Model of `src/main.rs`: the upstream client handed to the service is
`Some(connected client)` in `Collect` mode and `None` in `Serve` mode. -/
def clientFor (mode : ServerMode) (upstream : UpstreamClient) :
    Option UpstreamClient :=
  match mode with
  | .Collect => some upstream
  | .Serve => none

/-- Outcome of one unary RPC, together with whether the upstream client
was contacted and the store state after the call. -/
structure InferCallResult where
  res : Except Status ModelInferResponse
  upstream_called : Bool
  fs : DirState
  mem : List CachableModelInfer

/-- Model of `model_infer` (`src/service.rs`): fingerprint, cache lookup, Serve
refusal on miss, upstream forward, persist (insert errors become
`Status::unknown`), reply.  An upstream error propagates via `?`
unchanged. -/
def model_infer (client : Option UpstreamClient) (settings : Settings)
    (fs : DirState) (mem : List CachableModelInfer)
    (request : ModelInferRequest) : InferCallResult :=
  let parsed_input := ProcessedInput.from_infer_request request
  match CacheStore.findOutput fs mem parsed_input
      settings.get_match_config with
  | some cached_output =>
    { res := .ok (cached_output.to_response request)
      upstream_called := false, fs := fs, mem := mem }
  | none =>
    match client with
    | none =>
      { res := .error (Status.not_found "could not match request")
        upstream_called := false, fs := fs, mem := mem }
    | some c =>
      match c.infer request with
      | .error st =>
        { res := .error st, upstream_called := true, fs := fs, mem := mem }
      | .ok response =>
        let processed_response := ProcessedOutput.from_response response
        let sr := CacheStore.store fs mem parsed_input processed_response
        match sr.res with
        | .error err =>
          { res := .error (Status.unknown err.toStr)
            upstream_called := true, fs := sr.fs, mem := sr.mem }
        | .ok _ =>
          { res := .ok response, upstream_called := true,
            fs := sr.fs, mem := sr.mem }

/-- Outcome of one `model_config` RPC.  `panicked` is the
`store(...).unwrap()` abort on a persist failure. -/
inductive ConfigOutcome where
  | ok (resp : ModelConfigResponse)
  | err (st : Status)
  | panicked
deriving DecidableEq

/-- Result of `model_config` with its upstream-contact flag. -/
structure ConfigCallResult where
  res : ConfigOutcome
  upstream_called : Bool

/-- Model of `model_config` (`src/service.rs`): cache lookup over the config store,
`Unavailable` on a Serve-mode miss; on an upstream error the returned
status is rebuilt as `Status::unknown(err.to_string())`. -/
def model_config (client : Option UpstreamClient)
    (cmem : List CachableModelConfig) (request : ModelConfigRequest) :
    ConfigCallResult :=
  match configFindOutput cmem request with
  | some cached_output => { res := .ok cached_output, upstream_called := false }
  | none =>
    match client with
    | none =>
      { res := .err (Status.unavailable
          "uncached model config not available during serving mode")
        upstream_called := false }
    | some c =>
      match c.config request with
      | .ok res => { res := .ok res, upstream_called := true }
      | .error err =>
        { res := .err (Status.unknown err.toStr), upstream_called := true }

/-- One item read from the incoming request stream: a request or a
transport error (whose display string is the payload in the model). -/
abbrev StreamItem := Except String ModelInferRequest

/-- One item sent on the response channel: `tx.send(Ok(response))` or
`tx.send(Err(status))`.  Channel sends succeed in this model (the receiver
stays open). -/
abbrev SentItem := Except Status ModelStreamInferResponse

/-- The `model_stream_infer` worker task (`src/service.rs`): the list of
items it sends for a given list of incoming items.  Every branch except a
successful collect-persist-reply ends with `return`, which terminates the
worker and closes the stream; only the full success path continues with
the next message. -/
def streamWorker (client : Option UpstreamClient) (settings : Settings)
    (fs : DirState) (mem : List CachableModelInfer) :
    List StreamItem → List SentItem
  | [] => []
  | .error err :: _ =>
    [.ok { error_message := err, infer_response := none }]
  | .ok infer_request :: rest =>
    let parsed_input := ProcessedInput.from_infer_request infer_request
    match CacheStore.findOutput fs mem parsed_input
        settings.get_match_config with
    | some cached_output =>
      [.ok (cached_output.to_stream_response infer_request)]
    | none =>
      match client with
      | none => [.error (Status.not_found "could not match request")]
      | some c =>
        match c.infer infer_request with
        | .error err =>
          [.ok { error_message := err.toStr, infer_response := none }]
        | .ok response =>
          let processed_response := ProcessedOutput.from_response response
          let sr := CacheStore.store fs mem parsed_input processed_response
          match sr.res with
          | .error err =>
            [.ok { error_message := err.toStr, infer_response := none }]
          | .ok _ =>
            .ok { error_message := "", infer_response := some response } ::
              streamWorker client settings sr.fs sr.mem rest

/-! ### Concrete fixtures used to instantiate the claims -/

/-- Thirty-two zero bytes: a concrete `content_hash` value. -/
def ch0 : Bytes := List.replicate 32 0

/-- A minimal fingerprint: model `"m"`, version `"1"`, empty id,
no parameters, no tensors. -/
def fpBase : ProcessedInput :=
  { model_name := [109], model_version := [49], id := [], parameters := [],
    inputs := [], outputs := [], content_hash := ch0 }

/-- Fixture: `fpBase` with the single top-level parameter `"k" ↦ Bool(true)`. -/
def fpWithK : ProcessedInput :=
  { fpBase with parameters := [([107], some (.boolParam true))] }

/-- Fixture: `fpBase` with the single top-level parameter `"k" ↦ None`
(a parameter whose value is absent). -/
def fpWithKNone : ProcessedInput :=
  { fpBase with parameters := [([107], none)] }

/-- Fixture: `fpBase` with the single top-level parameter
`"k" ↦ Uint64(1)`, a value the untagged serde codec does not
round-trip. -/
def fpWithU64 : ProcessedInput :=
  { fpBase with parameters := [([107], some (.uint64Param 1))] }

/-- Fixture: a `RequestMatching` with every matching mode `Disable` (the configured
defaults of `src/settings.rs`). -/
def rmDisable : RequestMatching :=
  { match_id := false, parameter_matching := .Disable, parameter_keys := [],
    input_parameter_matching := .Disable, input_parameter_keys := [],
    output_parameter_matching := .Disable, output_parameter_keys := [],
    match_pruned_output := false }

/-- Serve-mode settings with the all-`Disable` matching config. -/
def serveSettings : Settings := { mode := .Serve, request_matching := rmDisable }

/-- A minimal concrete response. -/
def outBase : ProcessedOutput :=
  { parameters := [], outputs := [], raw_output_contents := [[1]] }

/-- Fingerprint with `model_name = "ab"`, `model_version = ""`. -/
def fpNameAB : ProcessedInput :=
  { model_name := [97, 98], model_version := [], id := [], parameters := [],
    inputs := [], outputs := [], content_hash := ch0 }

/-- Fingerprint with `model_name = "a"`, `model_version = "b"`: a distinct
fingerprint whose hash preimages all coincide with those of `fpNameAB`. -/
def fpNameA_B : ProcessedInput :=
  { fpNameAB with model_name := [97], model_version := [98] }

/-- A minimal concrete request (model `"m"`, version `"1"`, one raw input
buffer). -/
def reqOne : ModelInferRequest :=
  { model_name := [109], model_version := [49], id := [], parameters := [],
    inputs := [], outputs := [], raw_input_contents := [[1]] }

/-- Fixture: `reqOne` with a different raw input buffer: a cache miss relative to
the entry of `reqOne`. -/
def reqTwo : ModelInferRequest := { reqOne with raw_input_contents := [[2]] }

/-- Store state holding exactly the entry of `reqOne`, as produced by writing
it into an empty store. -/
def hitState : StoreResult :=
  CacheStore.store [] [] (ProcessedInput.from_infer_request reqOne) outBase

/-- Request with one typed input tensor (`contents` set) and no raw input
buffers. -/
def reqTyped1 : ModelInferRequest :=
  { model_name := [109], model_version := [49], id := [], parameters := [],
    inputs := [{ name := [105], datatype := [70], shape := [1],
                 parameters := [], contents := some [5] }],
    outputs := [], raw_input_contents := [] }

/-- Fixture: `reqTyped1` with different typed contents. -/
def reqTyped2 : ModelInferRequest :=
  { reqTyped1 with
    inputs := [{ name := [105], datatype := [70], shape := [1],
                 parameters := [], contents := some [6] }] }

/-- An upstream client whose calls fail with `InvalidArgument("bad")`. -/
def failingUpstream : UpstreamClient :=
  { infer := fun _ => .error { code := .invalidArgument, msg := "bad" },
    config := fun _ => .error { code := .invalidArgument, msg := "bad" } }

/-- A concrete config request. -/
def creqOne : ModelConfigRequest := { name := [109], version := [49] }

/-- A file name that passes `matches_file_name` (prefix, suffix, length
84) whose fourth hash block is not hex (`"z"` repeated). -/
def badHexName : FileName :=
  "infer-".toList ++ List.replicate 16 '0' ++ "#".toList ++
  List.replicate 16 '0' ++ "#".toList ++ List.replicate 16 '0' ++
  "#".toList ++ List.replicate 16 'z' ++ ".inferstore".toList

/-! ### Helper lemmas about byte and hex encodings -/

theorem toLeBytes8_length (n : Nat) : (toLeBytes8 n).length = 8 := rfl

theorem toLeBytes8_lt (n : Nat) : ∀ b ∈ toLeBytes8 n, b < 256 := by
  intro b hb
  simp only [toLeBytes8, List.mem_cons, List.not_mem_nil, or_false] at hb
  rcases hb with h | h | h | h | h | h | h | h <;> subst h <;>
    exact Nat.mod_lt _ (by norm_num)

theorem digest8_length (s : Bytes) : (digest8 s).length = 8 := rfl

theorem digest8_lt (s : Bytes) : ∀ b ∈ digest8 s, b < 256 :=
  toLeBytes8_lt _

theorem ProcessedOutput.hash_length (o : ProcessedOutput) :
    o.hash.length = 8 := rfl

theorem hexEncode_length (bs : Bytes) :
    (hexEncode bs).length = 2 * bs.length := by
  induction bs with
  | nil => rfl
  | cons b rest ih =>
    simp [hexEncode] at ih ⊢
    omega

theorem hexDigitVal_hexChar : ∀ m < 16, hexDigitVal (hexChar m) = some m := by
  decide

theorem hexDecode_hexEncode (bs : Bytes) (h : ∀ b ∈ bs, b < 256) :
    hexDecode (hexEncode bs) = some bs := by
  induction bs with
  | nil => rfl
  | cons b rest ih =>
    have hb : b < 256 := h b (List.mem_cons_self _ _)
    have h1 : hexDigitVal (hexChar (b / 16)) = some (b / 16) :=
      hexDigitVal_hexChar _ (Nat.div_lt_of_lt_mul (by omega))
    have h2 : hexDigitVal (hexChar (b % 16)) = some (b % 16) :=
      hexDigitVal_hexChar _ (Nat.mod_lt _ (by norm_num))
    have hrest : hexDecode (hexEncode rest) = some rest :=
      ih (fun x hx => h x (List.mem_cons_of_mem _ hx))
    have hmsg : hexEncode (b :: rest) =
        hexChar (b / 16) :: hexChar (b % 16) :: hexEncode rest := by
      simp [hexEncode]
    rw [hmsg, hexDecode, h1, h2, hrest]
    have : 16 * (b / 16) + b % 16 = b := Nat.div_add_mod b 16
    simp [this]

theorem hexEncode_inj (bs1 bs2 : Bytes) (h1 : ∀ b ∈ bs1, b < 256)
    (h2 : ∀ b ∈ bs2, b < 256) (he : hexEncode bs1 = hexEncode bs2) :
    bs1 = bs2 := by
  have := hexDecode_hexEncode bs1 h1
  rw [he, hexDecode_hexEncode bs2 h2] at this
  exact (Option.some_inj.mp this).symm

/-! ### Structure of the composite file name -/

/-- For an entry whose `output_hash` is 8 bytes long (as every entry the
program builds is), the file name is the `#`-separated hex of the four
partial hashes. -/
theorem get_file_name_components (e : CachableModelInfer)
    (h : e.output_hash.length = 8) :
    e.get_file_name =
      "infer-".toList ++ hexEncode e.input.inputs_hash ++
      "#".toList ++ hexEncode e.input.outputs_hash ++
      "#".toList ++ hexEncode e.input.metadata_hash ++
      "#".toList ++ hexEncode e.output_hash ++
      ".inferstore".toList := by
  have l1 : e.input.inputs_hash.length = 8 := digest8_length _
  have l2 : e.input.outputs_hash.length = 8 := digest8_length _
  have l3 : e.input.metadata_hash.length = 8 := digest8_length _
  have s0 : sliceL e.get_hash 0 8 = e.input.inputs_hash := by
    simp only [CachableModelInfer.get_hash, sliceL, List.drop_zero]
    rw [List.append_assoc, List.append_assoc]
    exact List.take_left' l1
  have s1 : sliceL e.get_hash 8 16 = e.input.outputs_hash := by
    simp only [CachableModelInfer.get_hash, sliceL]
    rw [List.append_assoc, List.append_assoc, List.drop_left' l1]
    exact List.take_left' l2
  have s2 : sliceL e.get_hash 16 24 = e.input.metadata_hash := by
    simp only [CachableModelInfer.get_hash, sliceL]
    rw [show (16 : Nat) = 8 + 8 by rfl, ← List.drop_drop,
      List.append_assoc, List.append_assoc, List.drop_left' l1,
      List.drop_left' l2]
    exact List.take_left' l3
  have s3 : sliceL e.get_hash 24 32 = e.output_hash := by
    simp only [CachableModelInfer.get_hash, sliceL]
    rw [show (24 : Nat) = 8 + (8 + 8) by rfl, ← List.drop_drop,
      ← List.drop_drop, List.append_assoc, List.append_assoc,
      List.drop_left' l1, List.drop_left' l2, List.drop_left' l3]
    exact List.take_of_length_le (by omega)
  simp only [CachableModelInfer.get_file_name, s0, s1, s2, s3]

theorem len_infer_pre : ("infer-".toList : FileName).length = 6 := rfl

theorem len_sep : ("#".toList : FileName).length = 1 := rfl

theorem len_suffix : (".inferstore".toList : FileName).length = 11 := rfl

theorem get_file_name_length (e : CachableModelInfer)
    (h : e.output_hash.length = 8) : e.get_file_name.length = 84 := by
  rw [get_file_name_components e h]
  simp [List.length_append, hexEncode_length, digest8_length, h,
    len_infer_pre, len_sep, len_suffix, ProcessedInput.inputs_hash,
    ProcessedInput.outputs_hash, ProcessedInput.metadata_hash]

/-- Every file name the store generates passes the name filter. -/
theorem matches_file_name_generated (e : CachableModelInfer)
    (h : e.output_hash.length = 8) :
    CachableModelInfer.matches_file_name e.get_file_name = true := by
  have hlen := get_file_name_length e h
  have hcomp := get_file_name_components e h
  simp only [CachableModelInfer.matches_file_name, Bool.and_eq_true,
    beq_iff_eq]
  refine ⟨⟨?_, ?_⟩, hlen⟩
  · simp only [startsWithL, beq_iff_eq, len_infer_pre, hcomp,
      List.append_assoc]
    exact List.take_left' len_infer_pre
  · simp only [endsWithL, beq_iff_eq, hlen, len_suffix, hcomp]
    apply List.drop_left'
    simp [List.length_append, hexEncode_length, digest8_length, h,
      len_infer_pre, len_sep, ProcessedInput.inputs_hash,
      ProcessedInput.outputs_hash, ProcessedInput.metadata_hash]

/-- Bytes 57..73 of a generated file name are the hex of the output
hash. -/
theorem slice_57_73 (e : CachableModelInfer)
    (h : e.output_hash.length = 8) :
    sliceL e.get_file_name 57 73 = hexEncode e.output_hash := by
  have hcomp := get_file_name_components e h
  rw [hcomp]
  simp only [sliceL]
  rw [show "infer-".toList ++ hexEncode e.input.inputs_hash ++
      "#".toList ++ hexEncode e.input.outputs_hash ++
      "#".toList ++ hexEncode e.input.metadata_hash ++
      "#".toList ++ hexEncode e.output_hash ++ ".inferstore".toList =
      ("infer-".toList ++ hexEncode e.input.inputs_hash ++
       "#".toList ++ hexEncode e.input.outputs_hash ++
       "#".toList ++ hexEncode e.input.metadata_hash ++ "#".toList) ++
      (hexEncode e.output_hash ++ ".inferstore".toList) by
    simp [List.append_assoc]]
  rw [List.drop_left' (by
    simp [List.length_append, hexEncode_length, digest8_length,
      len_infer_pre, len_sep, ProcessedInput.inputs_hash,
      ProcessedInput.outputs_hash, ProcessedInput.metadata_hash])]
  exact List.take_left' (by simp [hexEncode_length, h])

/-- Running `from_file` on a file the store wrote parses without failure
or panic and yields the entry holding the RELOADED fingerprint (the serde
round trip of the stored one) and the hex-decoded output hash. -/
theorem fromFile_generated (i : ProcessedInput) (o : ProcessedOutput) :
    fromFile (CachableModelInfer.get_file_name ⟨i, o.hash⟩)
      (.inferEntry i o) = .parsed ⟨i.reload, o.hash⟩ := by
  have h8 : (ProcessedOutput.hash o).length = 8 := rfl
  have hlen := get_file_name_length ⟨i, o.hash⟩ h8
  have hslice := slice_57_73 ⟨i, o.hash⟩ h8
  have hb : ∀ b ∈ o.hash, b < 256 := digest8_lt _
  simp only [fromFile, hlen, hslice]
  rw [hexDecode_hexEncode _ hb]
  norm_num

/-! ### The claims -/

/-- C1: the claim states that with `parameterMatching = Disable` the
top-level parameter comparison imposes no restriction, so two fingerprints
differing only in a single top-level parameter `k` match.  Evaluating the
code refutes this: `get_match_config` translates `Disable` into
`parameter_keys = []` with `exclude_parameters = true`, and excluding no
keys compares the two parameter maps in full, so the fingerprints do NOT
match — contradicting the doc comment on the `Disable` variant itself
("Do not match any parameters"). -/
theorem C1_disable_still_compares_parameters :
    serveSettings.request_matching.parameter_matching =
      ParameterMatching.Disable ∧
    ProcessedInput.matches fpBase fpWithK serveSettings.get_match_config =
      false ∧
    ProcessedInput.matches fpWithK fpBase serveSettings.get_match_config =
      false ∧
    ProcessedInput.matches fpBase fpBase serveSettings.get_match_config =
      true := by
  decide

set_option maxRecDepth 8000 in
/-- C2 counterexample: the claim states that a second insert colliding on
an existing composite filename returns success.  Evaluating the code at a
concrete repeated insert: the second call returns the create-exclusive
error, not success. -/
theorem C2_second_insert_returns_error :
    (CacheStore.store (CacheStore.store [] [] fpBase outBase).fs
        (CacheStore.store [] [] fpBase outBase).mem fpBase outBase).res =
      .error .alreadyExists := by
  decide

/-- C2 amended: an insert whose composite filename already exists in the
directory returns the create-exclusive error to the caller (`CacheStore::
store` propagates the `File::create_new` failure) and leaves both the
directory and the in-memory sequence unchanged; at most one file create
succeeds for a given composite filename. -/
theorem C2_colliding_insert_is_error_and_no_mutation (fs : DirState)
    (mem : List CachableModelInfer) (i : ProcessedInput)
    (o : ProcessedOutput)
    (h : hasFile fs (CachableModelInfer.get_file_name ⟨i, o.hash⟩) = true) :
    CacheStore.store fs mem i o =
      { res := .error .alreadyExists, fs := fs, mem := mem } := by
  simp [CacheStore.store, cachableNew, h]

/-- C2 witness: the amended theorem applied to a concrete collision. -/
theorem C2_colliding_insert_witness :
    CacheStore.store (CacheStore.store [] [] fpBase outBase).fs [] fpBase
        outBase =
      { res := .error .alreadyExists,
        fs := (CacheStore.store [] [] fpBase outBase).fs, mem := [] } :=
  C2_colliding_insert_is_error_and_no_mutation _ [] fpBase outBase
    (by decide)

set_option maxRecDepth 8000 in
/-- C3 counterexample: the claim quantifies over every
`(fingerprint, response)` pair, but the untagged `Parameter` codec is not
the identity on reload: writing a fingerprint whose single parameter is
`Uint64(1)` and loading a fresh store over the directory yields an entry
whose fingerprint carries `Int64(1)` instead — not equal to the
original. -/
theorem C3_uint64_param_not_roundtripped :
    CacheStore.load (CacheStore.store [] [] fpWithU64 outBase).fs =
      .ok [⟨ProcessedInput.reload fpWithU64, outBase.hash⟩] ∧
    (ProcessedInput.reload fpWithU64).parameters =
      [([107], some (.int64Param 1))] ∧
    ProcessedInput.reload fpWithU64 ≠ fpWithU64 := by
  decide

/-- C3 amended: writing a `(fingerprint, response)` pair into an empty
directory and loading a fresh `CacheStore` over that directory yields
exactly one in-memory entry, whose fingerprint equals the original and
whose `get_output` returns the original response, for every pair that the
serde reload leaves unchanged — i.e. whose parameter values (top-level,
per-tensor, and response-side) contain no `Uint64` parameter and no
non-finite `Double`.  In general the reloaded entry carries
`input.reload` and `get_output` returns `output.reload`. -/
theorem C3_write_then_load_roundtrip (i : ProcessedInput)
    (o : ProcessedOutput) (hi : i.reload = i) (ho : o.reload = o) :
    CacheStore.store [] [] i o =
      { res := .ok (CachableModelInfer.get_file_name ⟨i, o.hash⟩),
        fs := [(CachableModelInfer.get_file_name ⟨i, o.hash⟩,
                .inferEntry i o)],
        mem := [⟨i, o.hash⟩] } ∧
    CacheStore.load
        [(CachableModelInfer.get_file_name ⟨i, o.hash⟩, .inferEntry i o)] =
      .ok [⟨i, o.hash⟩] ∧
    (⟨i, o.hash⟩ : CachableModelInfer).input = i ∧
    CachableModelInfer.getOutput ⟨i, o.hash⟩
        [(CachableModelInfer.get_file_name ⟨i, o.hash⟩, .inferEntry i o)] =
      .ok o := by
  refine ⟨?_, ?_, rfl, ?_⟩
  · simp only [CacheStore.store, cachableNew, hasFile, List.any_nil,
      Bool.false_eq_true, if_false, List.nil_append]
  · have hm := matches_file_name_generated ⟨i, o.hash⟩ rfl
    have hf := fromFile_generated i o
    rw [hi] at hf
    simp only [CacheStore.load, List.filter_cons, List.filter_nil, hm,
      if_true, List.any_cons, List.any_nil, hf, FromFileResult.isPanic,
      Bool.or_false, Bool.false_eq_true, if_false, List.filterMap_cons,
      FromFileResult.toParsed, List.filterMap_nil]
  · have hro : CachableModelInfer.getOutput ⟨i, o.hash⟩
        [(CachableModelInfer.get_file_name ⟨i, o.hash⟩,
          .inferEntry i o)] = .ok o.reload := by
      simp only [CachableModelInfer.getOutput, readFile, List.find?,
        beq_self_eq_true]
      rfl
    rw [hro, ho]

/-- C3 witness: the amended theorem at a concrete reload-fixed pair. -/
theorem C3_write_then_load_roundtrip_witness :
    CacheStore.store [] [] fpBase outBase =
      { res := .ok (CachableModelInfer.get_file_name
          ⟨fpBase, outBase.hash⟩),
        fs := [(CachableModelInfer.get_file_name ⟨fpBase, outBase.hash⟩,
                .inferEntry fpBase outBase)],
        mem := [⟨fpBase, outBase.hash⟩] } ∧
    CacheStore.load
        [(CachableModelInfer.get_file_name ⟨fpBase, outBase.hash⟩,
          .inferEntry fpBase outBase)] =
      .ok [⟨fpBase, outBase.hash⟩] ∧
    (⟨fpBase, outBase.hash⟩ : CachableModelInfer).input = fpBase ∧
    CachableModelInfer.getOutput ⟨fpBase, outBase.hash⟩
        [(CachableModelInfer.get_file_name ⟨fpBase, outBase.hash⟩,
          .inferEntry fpBase outBase)] =
      .ok outBase :=
  C3_write_then_load_roundtrip fpBase outBase (by decide) (by decide)

/-- C4 counterexample: the claim states that equal composite filenames
imply identical `(fingerprint, response)` contents.  The hash preimages
concatenate fields without separators, so the distinct fingerprints
`model_name = "ab", model_version = ""` and
`model_name = "a", model_version = "b"` feed identical byte streams to
every hasher and produce the same filename with different contents. -/
theorem C4_distinct_entries_same_filename :
    CachableModelInfer.get_file_name ⟨fpNameAB, outBase.hash⟩ =
      CachableModelInfer.get_file_name ⟨fpNameA_B, outBase.hash⟩ ∧
    fpNameAB ≠ fpNameA_B ∧
    ProcessedInput.inputsHashMsg fpNameAB =
      ProcessedInput.inputsHashMsg fpNameA_B := by
  decide

/-- C4 amended: the composite filename is injective on the four partial
hashes (not on entry contents): two entries with the same filename have
equal `inputs_hash`, `outputs_hash`, `metadata_hash` and output hash. -/
theorem C4_filename_determines_partial_hashes (e1 e2 : CachableModelInfer)
    (h1 : e1.output_hash.length = 8) (hb1 : ∀ b ∈ e1.output_hash, b < 256)
    (h2 : e2.output_hash.length = 8) (hb2 : ∀ b ∈ e2.output_hash, b < 256)
    (heq : e1.get_file_name = e2.get_file_name) :
    e1.input.inputs_hash = e2.input.inputs_hash ∧
    e1.input.outputs_hash = e2.input.outputs_hash ∧
    e1.input.metadata_hash = e2.input.metadata_hash ∧
    e1.output_hash = e2.output_hash := by
  rw [get_file_name_components e1 h1, get_file_name_components e2 h2] at heq
  simp only [List.append_assoc] at heq
  have heq1 := List.append_cancel_left heq
  obtain ⟨hx, heq2⟩ := List.append_inj heq1
    (by simp [hexEncode_length, ProcessedInput.inputs_hash, digest8_length])
  have hxv := hexEncode_inj _ _ (digest8_lt _) (digest8_lt _) hx
  have heq3 := List.append_cancel_left heq2
  obtain ⟨hy, heq4⟩ := List.append_inj heq3
    (by simp [hexEncode_length, ProcessedInput.outputs_hash, digest8_length])
  have hyv := hexEncode_inj _ _ (digest8_lt _) (digest8_lt _) hy
  have heq5 := List.append_cancel_left heq4
  obtain ⟨hz, heq6⟩ := List.append_inj heq5
    (by simp [hexEncode_length, ProcessedInput.metadata_hash,
      digest8_length])
  have hzv := hexEncode_inj _ _ (digest8_lt _) (digest8_lt _) hz
  have heq7 := List.append_cancel_left heq6
  obtain ⟨hw, _⟩ := List.append_inj heq7
    (by simp [hexEncode_length, h1, h2])
  exact ⟨hxv, hyv, hzv, hexEncode_inj _ _ hb1 hb2 hw⟩

/-- C4 witness: the amended theorem applied to one concrete entry. -/
theorem C4_filename_determines_partial_hashes_witness :
    (⟨fpBase, outBase.hash⟩ : CachableModelInfer).input.inputs_hash =
      (⟨fpBase, outBase.hash⟩ : CachableModelInfer).input.inputs_hash ∧
    (⟨fpBase, outBase.hash⟩ : CachableModelInfer).input.outputs_hash =
      (⟨fpBase, outBase.hash⟩ : CachableModelInfer).input.outputs_hash ∧
    (⟨fpBase, outBase.hash⟩ : CachableModelInfer).input.metadata_hash =
      (⟨fpBase, outBase.hash⟩ : CachableModelInfer).input.metadata_hash ∧
    (⟨fpBase, outBase.hash⟩ : CachableModelInfer).output_hash =
      (⟨fpBase, outBase.hash⟩ : CachableModelInfer).output_hash :=
  C4_filename_determines_partial_hashes _ _ rfl (digest8_lt _) rfl
    (digest8_lt _) rfl

/-- C5: in Serve mode (`main` hands the service `None` as the upstream
client), a `ModelInfer` request matching no cached entry is answered
`NotFound("could not match request")`, a `ModelConfig` request matching no
cached entry is answered `Unavailable(...)`, and in both cases the
upstream client is never contacted. -/
theorem C5_serve_mode_miss (u : UpstreamClient) (s : Settings)
    (fs : DirState) (mem : List CachableModelInfer)
    (cmem : List CachableModelConfig) (req : ModelInferRequest)
    (creq : ModelConfigRequest)
    (hmiss : CacheStore.findOutput fs mem
      (ProcessedInput.from_infer_request req) s.get_match_config = none)
    (hcmiss : configFindOutput cmem creq = none) :
    (model_infer (clientFor .Serve u) s fs mem req).res =
      .error (Status.not_found "could not match request") ∧
    (model_infer (clientFor .Serve u) s fs mem req).upstream_called =
      false ∧
    (model_config (clientFor .Serve u) cmem creq).res =
      .err (Status.unavailable
        "uncached model config not available during serving mode") ∧
    (model_config (clientFor .Serve u) cmem creq).upstream_called =
      false := by
  refine ⟨?_, ?_, ?_, ?_⟩ <;>
    simp only [model_infer, model_config, clientFor, hmiss, hcmiss]

/-- C5 witness: the theorem at empty stores, where every lookup misses. -/
theorem C5_serve_mode_miss_witness :
    (model_infer (clientFor .Serve failingUpstream) serveSettings [] []
        reqOne).res =
      .error (Status.not_found "could not match request") ∧
    (model_infer (clientFor .Serve failingUpstream) serveSettings [] []
        reqOne).upstream_called = false ∧
    (model_config (clientFor .Serve failingUpstream) [] creqOne).res =
      .err (Status.unavailable
        "uncached model config not available during serving mode") ∧
    (model_config (clientFor .Serve failingUpstream) []
        creqOne).upstream_called = false :=
  C5_serve_mode_miss failingUpstream serveSettings [] [] [] reqOne creqOne
    rfl rfl

set_option maxRecDepth 8000 in
/-- C6 counterexample: the claim states that after a per-message cache hit
the worker processes the next incoming message, so a two-message stream
(hit, then Serve-mode miss) yields the hit response followed by a NotFound
status.  Evaluating the worker: the hit branch sends the response and then
`return`s, so only one item is ever sent and no NotFound is produced for
the second message. -/
theorem C6_hit_then_miss_sends_single_item :
    streamWorker none serveSettings hitState.fs hitState.mem
        [.ok reqOne, .ok reqTwo] =
      [.ok (outBase.to_stream_response reqOne)] ∧
    ¬ Except.error (Status.not_found "could not match request") ∈
        streamWorker none serveSettings hitState.fs hitState.mem
          [.ok reqOne, .ok reqTwo] := by
  decide

/-- C6 amended: a per-message cache hit sends the materialized response on
the channel and then terminates the worker: whatever messages follow, the
stream carries exactly the one hit response and closes. -/
theorem C6_hit_terminates_worker (client : Option UpstreamClient)
    (s : Settings) (fs : DirState) (mem : List CachableModelInfer)
    (r : ModelInferRequest) (rest : List StreamItem)
    (out : ProcessedOutput)
    (hhit : CacheStore.findOutput fs mem
      (ProcessedInput.from_infer_request r) s.get_match_config = some out) :
    streamWorker client s fs mem (.ok r :: rest) =
      [.ok (out.to_stream_response r)] := by
  simp only [streamWorker, hhit]

set_option maxRecDepth 8000 in
/-- C6 witness: the amended theorem at the concrete hit state. -/
theorem C6_hit_terminates_worker_witness :
    streamWorker none serveSettings hitState.fs hitState.mem
        [.ok reqOne, .ok reqTwo] =
      [.ok (outBase.to_stream_response reqOne)] :=
  C6_hit_terminates_worker none serveSettings hitState.fs hitState.mem
    reqOne [.ok reqTwo] outBase (by decide)

set_option maxRecDepth 8000 in
/-- C7 counterexample: the claim states that a parameter with an absent
value contributes nothing to `metadataHash`, not even its key, so
`{"k": None}` and `{}` hash identically.  Evaluating the code: the key is
always fed to the hasher and only the value is elided, so the two
fingerprints feed different byte streams (`"k"` versus nothing) and their
metadata hashes differ. -/
theorem C7_none_param_changes_metadata_hash :
    fpWithKNone.metadata_hash ≠ fpBase.metadata_hash ∧
    fpWithKNone.metadataHashMsg = [107] ∧
    fpBase.metadataHashMsg = [] := by
  decide

/-- C7 amended: a parameter whose value is absent contributes exactly its
key to the metadata-hash input: adding `(k, None)` to the top-level
parameters of any fingerprint changes the hashed byte stream (for any
non-empty key). -/
theorem C7_absent_value_contributes_key (f : ProcessedInput) (k : Bytes)
    (hk : k ≠ []) :
    ProcessedInput.metadataHashMsg
        { f with parameters := (k, none) :: f.parameters } ≠
      f.metadataHashMsg := by
  intro heq
  have hl := congrArg List.length heq
  simp only [ProcessedInput.metadataHashMsg, paramsMsg, List.map_cons,
    List.flatten_cons, List.length_append, List.append_nil] at hl
  have : k.length = 0 := by omega
  exact hk (List.eq_nil_of_length_eq_zero this)

/-- C7 witness: the amended theorem at the concrete fingerprints. -/
theorem C7_absent_value_contributes_key_witness :
    ProcessedInput.metadataHashMsg
        { fpBase with parameters := ([107], none) :: fpBase.parameters } ≠
      fpBase.metadataHashMsg :=
  C7_absent_value_contributes_key fpBase [107] (by decide)

/-- C8: the claim states that with no raw input buffers the content hash
is computed over the typed tensor contents, so requests with different
typed contents get different content hashes.  Evaluating the code at two
such requests: the parser hashes only `raw_input_contents` (the source
carries a TODO for the typed case), so both requests receive the hash of
the empty stream and their content hashes are equal. -/
theorem C8_content_hash_ignores_typed_contents :
    (ProcessedInput.from_infer_request reqTyped1).content_hash =
      (ProcessedInput.from_infer_request reqTyped2).content_hash ∧
    reqTyped1 ≠ reqTyped2 ∧
    reqTyped1.raw_input_contents = [] ∧
    reqTyped2.raw_input_contents = [] := by
  decide

/-- C9 counterexample: the claim states that an upstream failure is
surfaced with the same status code for the `ModelConfig` call.  Evaluating
the code with an upstream that fails with `InvalidArgument`: the reply is
rebuilt as `Status::unknown(err.to_string())`, so the code changes. -/
theorem C9_config_replaces_upstream_code :
    (model_config (some failingUpstream) [] creqOne).res =
      .err (Status.unknown "bad") ∧
    StatusCode.unknown ≠ StatusCode.invalidArgument := by
  decide

/-- C9 amended: on a cache miss forwarded upstream, a failing unary
`ModelInfer` call surfaces the upstream status unchanged (the `?`
propagation), while a failing `ModelConfig` call replaces the status with
`Unknown` carrying the display text of the error. -/
theorem C9_upstream_error_surfacing (u : UpstreamClient) (s : Settings)
    (fs : DirState) (mem : List CachableModelInfer)
    (cmem : List CachableModelConfig) (req : ModelInferRequest)
    (creq : ModelConfigRequest) (st stc : Status)
    (hmiss : CacheStore.findOutput fs mem
      (ProcessedInput.from_infer_request req) s.get_match_config = none)
    (hup : u.infer req = .error st)
    (hcmiss : configFindOutput cmem creq = none)
    (hupc : u.config creq = .error stc) :
    (model_infer (some u) s fs mem req).res = .error st ∧
    (model_config (some u) cmem creq).res =
      .err (Status.unknown stc.toStr) := by
  constructor
  · simp only [model_infer, hmiss, hup]
  · simp only [model_config, hcmiss, hupc]

/-- C9 witness: the amended theorem at the failing upstream client. -/
theorem C9_upstream_error_surfacing_witness :
    (model_infer (some failingUpstream) serveSettings [] [] reqOne).res =
      .error { code := .invalidArgument, msg := "bad" } ∧
    (model_config (some failingUpstream) [] creqOne).res =
      .err (Status.unknown
        ({ code := .invalidArgument, msg := "bad" } : Status).toStr) :=
  C9_upstream_error_surfacing failingUpstream serveSettings [] [] []
    reqOne creqOne _ _ rfl rfl rfl rfl

set_option maxRecDepth 8000 in
/-- C10 counterexample: the claim states that `load` completes
successfully over any mix of well-formed, corrupt, or foreign files and
that a problem file is never fatal.  Evaluating the code on a directory
holding one file whose name passes the filter but whose fourth hash block
is not hex, with content that parses: `hex::decode(...).unwrap()` panics
and `load` does not complete. -/
theorem C10_load_panics_on_nonhex_name :
    CachableModelInfer.matches_file_name badHexName = true ∧
    CacheStore.load [(badHexName, .inferEntry fpBase outBase)] =
      .error () := by
  decide

/-- C10 amended: a filter-passing file whose contents cannot be parsed is
skipped and contributes nothing, and `load` completes successfully over
any directory in which every filter-passing, content-parsable file carries
a hex-decodable fourth name block (true of every file the store itself
writes); without that proviso `from_file` can panic. -/
theorem C10_load_skips_unparsable (fs : DirState) (n : FileName)
    (b : Bytes)
    (hnp : ∀ f ∈ fs, CachableModelInfer.matches_file_name f.1 = true →
      fromFile f.1 f.2 ≠ .panicked) :
    (CacheStore.load fs).isOk = true ∧
    CacheStore.load (fs ++ [(n, .garbage b)]) = CacheStore.load fs := by
  have hany : (fs.filter
        (fun f => CachableModelInfer.matches_file_name f.1)).any
      (fun f => (fromFile f.1 f.2).isPanic) = false := by
    rw [List.any_eq_false]
    intro f hf
    obtain ⟨hmem, hpass⟩ := List.mem_filter.mp hf
    have hne := hnp f hmem hpass
    cases hres : fromFile f.1 f.2 with
    | parsed e => simp [FromFileResult.isPanic]
    | failed => simp [FromFileResult.isPanic]
    | panicked => exact absurd hres hne
  have hgarb : fromFile n (FileContent.garbage b) = .failed := rfl
  refine ⟨?_, ?_⟩
  · simp only [CacheStore.load, hany, Bool.false_eq_true, if_false,
      Except.isOk, Except.toBool]
  · simp only [CacheStore.load, List.filter_append, List.any_append,
      List.filterMap_append, hany, Bool.false_or]
    cases hpass : CachableModelInfer.matches_file_name n <;>
      simp [hpass, hgarb, FromFileResult.isPanic, FromFileResult.toParsed,
        hany]

/-- C10 witness: the amended theorem over the empty directory, extended by
one garbage file whose name passes the filter. -/
theorem C10_load_skips_unparsable_witness :
    (CacheStore.load []).isOk = true ∧
    CacheStore.load [(badHexName, .garbage [5])] = CacheStore.load [] :=
  C10_load_skips_unparsable [] badHexName [5] (by simp)

end InferStore
